/-
Verification development for the Event Grid → Logic App proxy
(`functionapp/eventgrid-proxy/index.js`, with the earlier single-target
revision of the same handler as a secondary source).

The JavaScript handler is shallowly embedded: JSON/JS values become the
inductive `JValue` (with an explicit `undef` for JavaScript's `undefined`),
the ambient `process.env` configuration becomes the record `Env`
(numeric settings are modelled post-`parseInt` as `Option Nat`), and the
downstream HTTPS POSTs performed by `postJsonOnce` become an oracle
`net : Nat → NetOutcome` giving, for each attempt number, either a received
HTTP response or a network-level failure.  `Math.random()` is modelled by a
jitter seed oracle `jit : Nat → Nat`; the sampled jitter is the seed reduced
modulo the bound `min 250 exp` used by the source (`Math.floor(Math.random()
* Math.min(250, exp))`), so exactly the values the source can draw are
representable.  Thrown JavaScript errors become the `Except` error channel.
The handler returns, besides `context.res`, the ordered trace of POSTs it
issued, so that "candidate never contacted" claims are statable.
-/
import Mathlib

namespace EGProxy

/-- JavaScript/JSON values as seen by the handler.  `undefined` models
JavaScript's `undefined` (absent property / absent body). -/
inductive JValue where
  | undefined : JValue
  | null : JValue
  | bool (b : Bool) : JValue
  | num (n : Int) : JValue
  | str (s : String) : JValue
  | arr (elems : List JValue) : JValue
  | obj (fields : List (String × JValue)) : JValue
deriving Repr

/-- JavaScript truthiness of a value (`if (x)`), for the values in the model
(no NaN, which is unrepresentable here). -/
def truthy : JValue → Bool
  | .undefined => false
  | .null => false
  | .bool b => b
  | .num n => n != 0
  | .str s => s != ""
  | .arr _ => true
  | .obj _ => true

/-- Property access `x?.k` (and `x.k` on non-null primitives): field lookup on
an object, `undefined` otherwise.  Mirrors the optional-chained accesses in the
source (`first?.eventType`, `first?.data?.validationCode`). -/
def jsGet : JValue → String → JValue
  | .obj fields, k =>
    match fields.find? (fun p => p.1 == k) with
    | some p => p.2
    | none => .undefined
  | _, _ => .undefined

/-- JavaScript `a || b`: `a` when truthy, else `b`. -/
def jsOr (a b : JValue) : JValue :=
  if truthy a then a else b

/-- `Array.isArray(body) ? body[0] : body`: the first (or only) record;
`body[0]` of an empty array is `undefined`. -/
def jsFirst : JValue → JValue
  | .arr elems => elems.headD .undefined
  | v => v

mutual
/-- A JSON serialization of a `JValue`, standing in for `JSON.stringify`
(string escaping is immaterial to the claims proved here: they compare
serializations of equal values). -/
def jsonSerialize : JValue → String
  | .undefined => "undefined"
  | .null => "null"
  | .bool b => if b then "true" else "false"
  | .num n => toString n
  | .str s => "\"" ++ s ++ "\""
  | .arr elems => "[" ++ serializeElems elems ++ "]"
  | .obj fields => "\x7b" ++ serializeFields fields ++ "\x7d"

/-- Serialize a list of array elements, comma separated. -/
def serializeElems : List JValue → String
  | [] => ""
  | [x] => jsonSerialize x
  | x :: y :: rest => jsonSerialize x ++ "," ++ serializeElems (y :: rest)

/-- Serialize a list of object fields, comma separated. -/
def serializeFields : List (String × JValue) → String
  | [] => ""
  | [p] => "\"" ++ p.1 ++ "\":" ++ jsonSerialize p.2
  | p :: q :: rest => "\"" ++ p.1 ++ "\":" ++ jsonSerialize p.2 ++ "," ++ serializeFields (q :: rest)
end

/-- One configured downstream target (`{ label, url }` in
`selectCallbackUrls`). -/
structure Candidate where
  label : String
  url : String
deriving Repr, DecidableEq

/-- The inbound request: `req.body` (already-parsed JSON, `undefined` when
absent) and `req.rawBody` (raw string when present). -/
structure Req where
  body : JValue
  rawBody : Option String

/-- The `process.env` configuration the handler reads.  URL and flag
settings are the raw strings (`none` = variable unset); the three numeric
retry tunables are modelled after `parseInt` as `Option Nat`
(`none` = unset, defaulted by the source). -/
structure Env where
  LOGICAPP_CALLBACK_URL_NEXT : Option String := none
  LOGICAPP_CALLBACK_URL_ACTIVE : Option String := none
  FORWARD_ALLOW_FALLBACK : Option String := none
  RETURN_FORWARDED_BODY : Option String := none
  FORWARD_MAX_ATTEMPTS : Option Nat := none
  FORWARD_BASE_DELAY_MS : Option Nat := none
  FORWARD_MAX_DELAY_MS : Option Nat := none

/-- The three retry tunables of `postJsonWithRetry`. -/
structure RetryCfg where
  maxAttempts : Nat
  baseDelayMs : Nat
  maxDelayMs : Nat
deriving Repr, DecidableEq

/-- `{ maxAttempts, baseDelayMs, maxDelayMs }` as read (with defaults
`"4"`, `"500"`, `"8000"`) at the top of `postJsonWithRetry`. -/
def retryCfg (env : Env) : RetryCfg :=
  ⟨env.FORWARD_MAX_ATTEMPTS.getD 4,
   env.FORWARD_BASE_DELAY_MS.getD 500,
   env.FORWARD_MAX_DELAY_MS.getD 8000⟩

/-- What one `postJsonOnce` call yields: a received HTTP response
(`resolve({status, body})`), or a network-level failure (`reject(err)`,
no HTTP response at all) carrying an error identifier. -/
inductive NetOutcome where
  | err (e : Nat) : NetOutcome
  | resp (status : Nat) (body : String) : NetOutcome
deriving Repr, DecidableEq

/-- The value `{ ...resp, attempts: attempt }` returned by
`postJsonWithRetry` on its non-throwing paths. -/
structure RetryOk where
  status : Nat
  body : String
  attempts : Nat
deriving Repr, DecidableEq

/-- What `postJsonWithRetry` throws: the last network error
(`throw lastErr`), or the generic `new Error("Forwarding failed after
retries")` when no attempt ever ran. -/
inductive RetryErr where
  | netFault (e : Nat) : RetryErr
  | exhausted : RetryErr
deriving Repr, DecidableEq

/-- Observable behaviour of one `postJsonWithRetry` call: its
return-or-throw result, the backoff delays slept between attempts (in
order), and the attempt numbers at which a POST was actually issued. -/
structure RetryTrace where
  result : Except RetryErr RetryOk
  delays : List Nat
  tries : List Nat
deriving Repr

/-- `isRetryableStatus`: 408, 429 or any 5xx. -/
def isRetryableStatus (status : Nat) : Bool :=
  status == 408 || status == 429 || (decide (500 ≤ status) && decide (status ≤ 599))

/-- `exp = Math.min(maxDelayMs, baseDelayMs * Math.pow(2, attempt - 1))`. -/
def expDelay (cfg : RetryCfg) (attempt : Nat) : Nat :=
  min cfg.maxDelayMs (cfg.baseDelayMs * 2 ^ (attempt - 1))

/-- `jitter = Math.floor(Math.random() * Math.min(250, exp))`: the random
draw is modelled by reducing the seed `jit attempt` modulo the bound
(`max 1` so that a zero bound yields jitter 0, exactly as the source does). -/
def usedJitter (cfg : RetryCfg) (jit : Nat → Nat) (attempt : Nat) : Nat :=
  jit attempt % max 1 (min 250 (expDelay cfg attempt))

/-- `delay = Math.min(maxDelayMs, exp + jitter)`. -/
def backoffDelay (cfg : RetryCfg) (jit : Nat → Nat) (attempt : Nat) : Nat :=
  min cfg.maxDelayMs (expDelay cfg attempt + usedJitter cfg jit attempt)

/-- The attempt loop of `postJsonWithRetry` (`index.js` revision), fuel =
number of attempts still allowed.  Each iteration: POST (`net attempt`);
on a response, return it when 2xx, non-retryable, or final attempt,
otherwise sleep the backoff delay and loop; on a network error, throw it
when this was the final attempt (`break` + `throw lastErr`), otherwise
sleep and loop.  Fuel 0 is reached only when `maxAttempts` allows no
attempt at all, where the source throws its generic error. -/
def retryAux (cfg : RetryCfg) (net : Nat → NetOutcome) (jit : Nat → Nat) :
    Nat → Nat → RetryTrace
  | 0, _ => ⟨.error .exhausted, [], []⟩
  | fuel + 1, attempt =>
    match net attempt with
    | .resp s b =>
      if (200 ≤ s ∧ s < 300) ∨ isRetryableStatus s = false ∨ attempt = cfg.maxAttempts then
        ⟨.ok ⟨s, b, attempt⟩, [], [attempt]⟩
      else
        let rest := retryAux cfg net jit fuel (attempt + 1)
        ⟨rest.result, backoffDelay cfg jit attempt :: rest.delays, attempt :: rest.tries⟩
    | .err e =>
      if attempt = cfg.maxAttempts then
        ⟨.error (.netFault e), [], [attempt]⟩
      else
        let rest := retryAux cfg net jit fuel (attempt + 1)
        ⟨rest.result, backoffDelay cfg jit attempt :: rest.delays, attempt :: rest.tries⟩

/-- `postJsonWithRetry(context, targetUrl, body)` for one target: run the
attempt loop from attempt 1 with a budget of `maxAttempts` attempts. -/
def postJsonWithRetry (cfg : RetryCfg) (net : Nat → NetOutcome) (jit : Nat → Nat) :
    RetryTrace :=
  retryAux cfg net jit cfg.maxAttempts 1

/-- What the earlier single-target revision's `postJsonWithRetry` throws:
the fault object carries `e.lastResponse` (`lastResp`), the most recent
received response, `{status: 0, body: ""}` when none was received. -/
inductive LegacyErr where
  | netFault (e : Nat) (lastStatus : Nat) (lastBody : String) : LegacyErr
  | exhausted (lastStatus : Nat) (lastBody : String) : LegacyErr
deriving Repr, DecidableEq

/-- Attempt loop of the earlier revision's `postJsonWithRetry`, threading
`lastResp` (updated on every received response) into the thrown fault. -/
def legacyRetryAux (cfg : RetryCfg) (net : Nat → NetOutcome) :
    Nat → String → Nat → Nat → Except LegacyErr RetryOk
  | lastStatus, lastBody, 0, _ => .error (.exhausted lastStatus lastBody)
  | lastStatus, lastBody, fuel + 1, attempt =>
    match net attempt with
    | .resp s b =>
      if (200 ≤ s ∧ s < 300) ∨ isRetryableStatus s = false ∨ attempt = cfg.maxAttempts then
        .ok ⟨s, b, attempt⟩
      else
        legacyRetryAux cfg net s b fuel (attempt + 1)
    | .err e =>
      if attempt = cfg.maxAttempts then
        .error (.netFault e lastStatus lastBody)
      else
        legacyRetryAux cfg net lastStatus lastBody fuel (attempt + 1)

/-- The earlier revision's `postJsonWithRetry`: `lastResp` starts as
`{status: 0, body: ""}`. -/
def legacyPostJsonWithRetry (cfg : RetryCfg) (net : Nat → NetOutcome) :
    Except LegacyErr RetryOk :=
  legacyRetryAux cfg net 0 "" cfg.maxAttempts 1

/-- `selectCallbackUrls()`: read the NEXT (canary) and ACTIVE (stable)
slots (`|| ""` for unset) and push each, in that order, when it is a
nonempty string other than the literal `"null"`. -/
def selectCallbackUrls (env : Env) : List Candidate :=
  let next := env.LOGICAPP_CALLBACK_URL_NEXT.getD ""
  let active := env.LOGICAPP_CALLBACK_URL_ACTIVE.getD ""
  let urls : List Candidate := []
  let urls := if next != "" && next != "null" then urls ++ [⟨"NEXT", next⟩] else urls
  let urls := if active != "" && active != "null" then urls ++ [⟨"ACTIVE", active⟩] else urls
  urls

/-- `String(x || "true")` / `String(x || "false")`: the string default
applies when the variable is unset or empty. -/
def orDefault (s d : String) : String :=
  if s == "" then d else s

/-- ASCII lowercasing of one character, as `toLowerCase` acts on the
config strings involved here. -/
def lowerChar (c : Char) : Char :=
  if 65 ≤ c.toNat ∧ c.toNat ≤ 90 then Char.ofNat (c.toNat + 32) else c

/-- `s.toLowerCase()` (ASCII). -/
def lowerString (s : String) : String :=
  ⟨s.data.map lowerChar⟩

/-- `String(process.env.FORWARD_ALLOW_FALLBACK || "true").toLowerCase() === "true"`. -/
def allowFallbackEnv (env : Env) : Bool :=
  lowerString (orDefault (env.FORWARD_ALLOW_FALLBACK.getD "") "true") == "true"

/-- `String(process.env.RETURN_FORWARDED_BODY || "false").toLowerCase() === "true"`. -/
def includeBodyEnv (env : Env) : Bool :=
  lowerString (orDefault (env.RETURN_FORWARDED_BODY.getD "") "false") == "true"

/-- `context.res`: the proxy's own HTTP response (status code and JSON
body; the constant `Content-Type` header is omitted from the model). -/
structure Response where
  status : Nat
  body : JValue
deriving Repr

/-- Look a field up in a JSON-object response body. -/
def responseField (r : Response) (k : String) : Option JValue :=
  match r.body with
  | .obj fields =>
    match fields.find? (fun p => p.1 == k) with
    | some p => some p.2
    | none => none
  | _ => none

/-- One downstream POST actually issued (candidate label and url, attempt
number within that candidate, and the JSON payload written). -/
structure Call where
  label : String
  url : String
  attempt : Nat
  payload : JValue
deriving Repr

/-- Result of one handler invocation: `context.res` plus the ordered trace
of downstream POSTs issued. -/
structure HandlerResult where
  res : Response
  calls : List Call
deriving Repr

/-- `String(err.stack ? err.stack : err)` on a caught forwarding fault:
a rendering of the thrown error (its exact text is irrelevant to the
claims; only which branch produced it matters). -/
def errDetails : RetryErr → String
  | .netFault e => "Error: network failure " ++ toString e
  | .exhausted => "Error: Forwarding failed after retries"

/-- Truncation of the forwarded body when `RETURN_FORWARDED_BODY` is on:
`resp.body.length > 4000 ? resp.body.slice(0, 4000) + "...(truncated)" :
resp.body || ""`. -/
def trimForwardBody (s : String) : String :=
  if 4000 < s.length then s.take 4000 ++ "...(truncated)" else s

/-- Response for an empty/unparseable body. -/
def emptyBodyResponse : Response :=
  ⟨200, .obj [("ok", .bool false), ("error", .str "Empty/unparseable body")]⟩

/-- Response for the subscription-validation handshake. -/
def handshakeResponse (code : JValue) : Response :=
  ⟨200, .obj [("validationResponse", code)]⟩

/-- Response when no callback URL is configured. -/
def noCallbackResponse : Response :=
  ⟨200, .obj [("ok", .bool false), ("error", .str "No Logic App callback URL configured")]⟩

/-- Response composed after a forward that produced an HTTP response
(2xx or not), in the terminal branch of the candidate loop. -/
def forwardResponse (includeBody : Bool) (resp : RetryOk) (used : String) : Response :=
  let success : Bool := decide (200 ≤ resp.status ∧ resp.status < 300)
  ⟨200, .obj ([("ok", .bool success),
               ("forwardedStatus", .num (resp.status : Int)),
               ("attempts", .num (resp.attempts : Int)),
               ("usedCallback", .str used)] ++
              (if includeBody then [("forwardedBody", .str (trimForwardBody resp.body))] else []))⟩

/-- Response composed in the `catch` of the candidate loop when fallback is
not taken (still HTTP 200 to Event Grid). -/
def retryFailResponse (cfg : RetryCfg) (used details : String) : Response :=
  ⟨200, .obj [("ok", .bool false),
              ("forwardedStatus", .num 0),
              ("attempts", .num (cfg.maxAttempts : Int)),
              ("usedCallback", .str used),
              ("error", .str "Forwarding failed after retries"),
              ("details", .str details)]⟩

/-- Response composed after the candidate loop exhausts all candidates. -/
def exhaustedResponse (cfg : RetryCfg) (last : Option RetryOk) (used details : String) :
    Response :=
  ⟨200, .obj [("ok", .bool false),
              ("forwardedStatus", .num (((last.map RetryOk.status).getD 0 : Nat) : Int)),
              ("attempts", .num (((last.map RetryOk.attempts).getD cfg.maxAttempts : Nat) : Int)),
              ("usedCallback", .str used),
              ("error", .str "Forwarding failed (all candidates exhausted)"),
              ("details", .str details)]⟩

/-- The `for (const c of candidates)` loop of the handler, threading the
`last` response, the `used` label and the captured `details` exactly as the
source does.  The oracles are indexed by candidate label (labels are
distinct by construction of `selectCallbackUrls`). -/
def forwardLoop (cfg : RetryCfg) (af ib : Bool) (net : String → Nat → NetOutcome)
    (jit : String → Nat → Nat) (payload : JValue) :
    Option RetryOk → String → String → List Candidate → HandlerResult
  | last, used, details, [] => ⟨exhaustedResponse cfg last used details, []⟩
  | last, _, details, c :: rest =>
    let t := postJsonWithRetry cfg (net c.label) (jit c.label)
    let calls := t.tries.map (fun a => ⟨c.label, c.url, a, payload⟩)
    match t.result with
    | .ok resp =>
      if (200 ≤ resp.status ∧ resp.status < 300) ∨ af = false ∨ c.label = "ACTIVE" then
        ⟨forwardResponse ib resp c.label, calls⟩
      else
        let r := forwardLoop cfg af ib net jit payload (some resp) c.label details rest
        ⟨r.res, calls ++ r.calls⟩
    | .error e =>
      let d := errDetails e
      if af = false ∨ c.label = "ACTIVE" then
        ⟨retryFailResponse cfg c.label d, calls⟩
      else
        let r := forwardLoop cfg af ib net jit payload last c.label d rest
        ⟨r.res, calls ++ r.calls⟩

/-- The reserved handshake event type. -/
def validationEventType : String := "Microsoft.EventGrid.SubscriptionValidationEvent"

/-- `first?.eventType === "Microsoft.EventGrid.SubscriptionValidationEvent"`:
strict equality against a string literal. -/
def isValidationEvent (first : JValue) : Bool :=
  match jsGet first "eventType" with
  | .str s => s == validationEventType
  | _ => false

/-- `first?.data?.validationCode || ""`: the echoed validation code. -/
def echoCode (first : JValue) : JValue :=
  jsOr (jsGet (jsGet first "data") "validationCode") (.str "")

/-- The body the handler works with: `req.body`, except that when that is
falsy and `req.rawBody` is a string with nonblank content that parses as
JSON, the parsed value is used (`safeJsonParse`; on parse failure the
original falsy body is kept).  `parse` abstracts `JSON.parse`
(`none` = parse error). -/
def effectiveBody (req : Req) (parse : String → Option JValue) : JValue :=
  if truthy req.body then req.body
  else
    match req.rawBody with
    | some s =>
      if s.trim != "" then
        match parse s with
        | some v => v
        | none => req.body
      else req.body
    | none => req.body

/-- The exported handler `module.exports = async function (context, req)`.
Returns `context.res` plus the trace of downstream POSTs.  The embedding is
total: the only construct that throws inside the source's outer `try` is
`postJsonWithRetry`, which the candidate loop catches, so the outer
last-resort `catch` (which would also answer 200) is unreachable and the
model needs no separate fault channel for it. -/
def runHandler (env : Env) (req : Req) (parse : String → Option JValue)
    (net : String → Nat → NetOutcome) (jit : String → Nat → Nat) : HandlerResult :=
  let body := effectiveBody req parse
  if truthy body = false then ⟨emptyBodyResponse, []⟩
  else if isValidationEvent (jsFirst body) then
    ⟨handshakeResponse (echoCode (jsFirst body)), []⟩
  else
    match selectCallbackUrls env with
    | [] => ⟨noCallbackResponse, []⟩
    | c :: cs =>
      forwardLoop (retryCfg env) (allowFallbackEnv env) (includeBodyEnv env) net jit body
        none "NONE" "" (c :: cs)

/-! ## Lemmas about the retry primitive -/

/-- An attempt outcome after which the source loop goes on to the next
attempt (provided attempts remain): a network error, or a response with a
retryable status. -/
def continuesB : NetOutcome → Bool
  | .err _ => true
  | .resp s _ => isRetryableStatus s

theorem isRetryableStatus_iff (s : Nat) :
    isRetryableStatus s = true ↔ (s = 408 ∨ s = 429 ∨ (500 ≤ s ∧ s ≤ 599)) := by
  simp [isRetryableStatus, or_assoc]

theorem retryable_not_2xx {s : Nat} (h : isRetryableStatus s = true) :
    ¬(200 ≤ s ∧ s < 300) := by
  rw [isRetryableStatus_iff] at h
  omega

theorem retryAux_resp_done (cfg : RetryCfg) (net : Nat → NetOutcome) (jit : Nat → Nat)
    (fuel attempt : Nat) {s : Nat} {b : String}
    (hnet : net attempt = .resp s b)
    (hdone : (200 ≤ s ∧ s < 300) ∨ isRetryableStatus s = false ∨ attempt = cfg.maxAttempts) :
    retryAux cfg net jit (fuel + 1) attempt = ⟨.ok ⟨s, b, attempt⟩, [], [attempt]⟩ := by
  simp only [retryAux]
  split
  next s' b' heq =>
    rw [hnet] at heq
    cases heq
    rw [if_pos hdone]
  next e heq =>
    rw [hnet] at heq
    cases heq

theorem retryAux_err_done (cfg : RetryCfg) (net : Nat → NetOutcome) (jit : Nat → Nat)
    (fuel attempt : Nat) {e : Nat}
    (hnet : net attempt = .err e) (heq : attempt = cfg.maxAttempts) :
    retryAux cfg net jit (fuel + 1) attempt = ⟨.error (.netFault e), [], [attempt]⟩ := by
  simp only [retryAux]
  split
  next s' b' h =>
    rw [hnet] at h
    cases h
  next e' h =>
    rw [hnet] at h
    cases h
    rw [if_pos heq]

theorem retryAux_continue (cfg : RetryCfg) (net : Nat → NetOutcome) (jit : Nat → Nat)
    (fuel attempt : Nat)
    (hcont : continuesB (net attempt) = true) (hne : attempt ≠ cfg.maxAttempts) :
    retryAux cfg net jit (fuel + 1) attempt =
      ⟨(retryAux cfg net jit fuel (attempt + 1)).result,
       backoffDelay cfg jit attempt :: (retryAux cfg net jit fuel (attempt + 1)).delays,
       attempt :: (retryAux cfg net jit fuel (attempt + 1)).tries⟩ := by
  simp only [retryAux]
  split
  next s b heq =>
    have hr : isRetryableStatus s = true := by
      rw [heq] at hcont
      simpa [continuesB] using hcont
    rw [if_neg (fun hcond => by
      rcases hcond with h2xx | hnr | heqq
      · exact retryable_not_2xx hr h2xx
      · rw [hr] at hnr; cases hnr
      · exact hne heqq)]
  next e heq =>
    rw [if_neg hne]

/-- Peeling `k` consecutive continuing attempts off the front of the loop. -/
theorem retryAux_skip (cfg : RetryCfg) (net : Nat → NetOutcome) (jit : Nat → Nat) :
    ∀ (k fuel attempt : Nat),
      (∀ i, i < k → continuesB (net (attempt + i)) = true ∧ attempt + i ≠ cfg.maxAttempts) →
      retryAux cfg net jit (k + fuel) attempt =
        ⟨(retryAux cfg net jit fuel (attempt + k)).result,
         (List.range' attempt k).map (backoffDelay cfg jit) ++
           (retryAux cfg net jit fuel (attempt + k)).delays,
         List.range' attempt k ++ (retryAux cfg net jit fuel (attempt + k)).tries⟩ := by
  intro k
  induction k with
  | zero => intro fuel attempt _; simp
  | succ k ih =>
    intro fuel attempt h
    have hstep := retryAux_continue cfg net jit (k + fuel) attempt
      (h 0 (Nat.succ_pos k)).1 (by simpa using (h 0 (Nat.succ_pos k)).2)
    have hk : (k + 1) + fuel = (k + fuel) + 1 := by omega
    rw [hk, hstep, ih fuel (attempt + 1) (fun i hi => by
      have := h (i + 1) (by omega)
      constructor
      · have hc := this.1; rw [show attempt + 1 + i = attempt + (i + 1) by omega]; exact hc
      · have hc := this.2; rw [show attempt + 1 + i = attempt + (i + 1) by omega]; exact hc)]
    rw [List.range'_succ]
    simp [show attempt + 1 + k = attempt + (k + 1) by omega]

/-- If attempts `1..a-1` all continue, `postJsonWithRetry` runs the loop up
to attempt `a` and its behaviour from there is that of the remaining loop. -/
theorem postJsonWithRetry_reach (cfg : RetryCfg) (net : Nat → NetOutcome) (jit : Nat → Nat)
    (a : Nat) (ha1 : 1 ≤ a) (ha2 : a ≤ cfg.maxAttempts)
    (hreach : ∀ i, 1 ≤ i → i < a → continuesB (net i) = true) :
    postJsonWithRetry cfg net jit =
      ⟨(retryAux cfg net jit (cfg.maxAttempts - a + 1) a).result,
       (List.range' 1 (a - 1)).map (backoffDelay cfg jit) ++
         (retryAux cfg net jit (cfg.maxAttempts - a + 1) a).delays,
       List.range' 1 (a - 1) ++ (retryAux cfg net jit (cfg.maxAttempts - a + 1) a).tries⟩ := by
  unfold postJsonWithRetry
  have hsplit : cfg.maxAttempts = (a - 1) + (cfg.maxAttempts - a + 1) := by omega
  have h2 : retryAux cfg net jit cfg.maxAttempts 1 =
      retryAux cfg net jit ((a - 1) + (cfg.maxAttempts - a + 1)) 1 := by
    rw [← hsplit]
  have h3 := retryAux_skip cfg net jit (a - 1) (cfg.maxAttempts - a + 1) 1
    (fun i hi => ⟨hreach (1 + i) (by omega) (by omega), by omega⟩)
  rw [h2, h3, show 1 + (a - 1) = a by omega]

/-- Terminal HTTP response at a reached attempt `a`: the loop returns
`{...resp, attempts: a}` having POSTed exactly at attempts `1..a`. -/
theorem postJsonWithRetry_result_at (cfg : RetryCfg) (net : Nat → NetOutcome) (jit : Nat → Nat)
    (a : Nat) {s : Nat} {b : String}
    (ha1 : 1 ≤ a) (ha2 : a ≤ cfg.maxAttempts)
    (hreach : ∀ i, 1 ≤ i → i < a → continuesB (net i) = true)
    (hnet : net a = .resp s b)
    (hdone : (200 ≤ s ∧ s < 300) ∨ isRetryableStatus s = false ∨ a = cfg.maxAttempts) :
    (postJsonWithRetry cfg net jit).result = .ok ⟨s, b, a⟩ ∧
    (postJsonWithRetry cfg net jit).tries = List.range' 1 a := by
  have hft : cfg.maxAttempts - a + 1 = (cfg.maxAttempts - a) + 1 := by omega
  have hdone' := retryAux_resp_done cfg net jit (cfg.maxAttempts - a) a hnet hdone
  rw [postJsonWithRetry_reach cfg net jit a ha1 ha2 hreach, hft, hdone']
  refine ⟨rfl, ?_⟩
  show List.range' 1 (a - 1) ++ [a] = List.range' 1 a
  have : a = (a - 1) + 1 := by omega
  rw [this, List.range'_1_concat]
  simp
  omega

theorem backoffDelay_le (cfg : RetryCfg) (jit : Nat → Nat) (attempt : Nat) :
    backoffDelay cfg jit attempt ≤ cfg.maxDelayMs :=
  Nat.min_le_left _ _

theorem nat_sum_le_length_mul {n : Nat} :
    ∀ l : List Nat, (∀ x ∈ l, x ≤ n) → l.sum ≤ l.length * n := by
  intro l
  induction l with
  | nil => intro _; simp
  | cons x xs ih =>
    intro h
    have hx := h x (List.mem_cons_self x xs)
    have hxs := ih (fun y hy => h y (List.mem_cons_of_mem x hy))
    simp only [List.sum_cons, List.length_cons]
    calc x + xs.sum ≤ n + xs.length * n := Nat.add_le_add hx hxs
    _ = (xs.length + 1) * n := by ring

/-- The delays slept by the loop are the backoff delays of an initial run
of consecutive attempts, never reaching the final attempt. -/
theorem retryAux_delays_shape (cfg : RetryCfg) (net : Nat → NetOutcome) (jit : Nat → Nat) :
    ∀ (fuel attempt : Nat), attempt + fuel = cfg.maxAttempts + 1 →
      ∃ k, (retryAux cfg net jit fuel attempt).delays =
            (List.range' attempt k).map (backoffDelay cfg jit) ∧
           (k = 0 ∨ attempt + k ≤ cfg.maxAttempts) := by
  intro fuel
  induction fuel with
  | zero =>
    intro attempt _
    exact ⟨0, by simp [retryAux], Or.inl rfl⟩
  | succ fuel ih =>
    intro attempt hinv
    simp only [retryAux]
    split
    next s b heq =>
      split
      next hdone => exact ⟨0, by simp, Or.inl rfl⟩
      next hnotdone =>
        have hne : attempt ≠ cfg.maxAttempts := fun hc => hnotdone (Or.inr (Or.inr hc))
        obtain ⟨k, hk, hb⟩ := ih (attempt + 1) (by omega)
        refine ⟨k + 1, ?_, Or.inr (by omega)⟩
        simp only [List.range'_succ, List.map_cons]
        rw [hk]
    next e heq =>
      split
      next hdone => exact ⟨0, by simp, Or.inl rfl⟩
      next hne =>
        obtain ⟨k, hk, hb⟩ := ih (attempt + 1) (by omega)
        refine ⟨k + 1, ?_, Or.inr (by omega)⟩
        simp only [List.range'_succ, List.map_cons]
        rw [hk]

theorem retryAux_delays_le (cfg : RetryCfg) (net : Nat → NetOutcome) (jit : Nat → Nat) :
    ∀ (fuel attempt : Nat) (d : Nat),
      d ∈ (retryAux cfg net jit fuel attempt).delays → d ≤ cfg.maxDelayMs := by
  intro fuel
  induction fuel with
  | zero => intro attempt d hd; simp [retryAux] at hd
  | succ fuel ih =>
    intro attempt d hd
    simp only [retryAux] at hd
    split at hd
    next s b heq =>
      split at hd
      next => simp at hd
      next =>
        simp only [List.mem_cons] at hd
        rcases hd with rfl | hd
        · exact backoffDelay_le cfg jit attempt
        · exact ih (attempt + 1) d hd
    next e heq =>
      split at hd
      next => simp at hd
      next =>
        simp only [List.mem_cons] at hd
        rcases hd with rfl | hd
        · exact backoffDelay_le cfg jit attempt
        · exact ih (attempt + 1) d hd

/-- First POST of a run is always at attempt 1 (when any attempt is
allowed): the tries list starts with the current attempt number. -/
theorem retryAux_tries_cons (cfg : RetryCfg) (net : Nat → NetOutcome) (jit : Nat → Nat)
    (fuel attempt : Nat) :
    ∃ rest, (retryAux cfg net jit (fuel + 1) attempt).tries = attempt :: rest := by
  simp only [retryAux]
  split
  next s b heq =>
    split
    next => exact ⟨[], rfl⟩
    next => exact ⟨_, rfl⟩
  next e heq =>
    split
    next => exact ⟨[], rfl⟩
    next => exact ⟨_, rfl⟩

theorem postJsonWithRetry_tries_cons (cfg : RetryCfg) (net : Nat → NetOutcome)
    (jit : Nat → Nat) (hA : 1 ≤ cfg.maxAttempts) :
    ∃ rest, (postJsonWithRetry cfg net jit).tries = 1 :: rest := by
  unfold postJsonWithRetry
  obtain ⟨fuel, hfuel⟩ : ∃ fuel, cfg.maxAttempts = fuel + 1 := ⟨cfg.maxAttempts - 1, by omega⟩
  rw [hfuel]
  exact retryAux_tries_cons cfg net jit fuel 1

/-- All-network-failure run of the legacy loop: throws the final attempt's
error, carrying the (never-updated) initial `lastResp`. -/
theorem legacyRetryAux_allErr (cfg : RetryCfg) (net : Nat → NetOutcome) (errOf : Nat → Nat)
    (hnet : ∀ a, 1 ≤ a → a ≤ cfg.maxAttempts → net a = .err (errOf a)) :
    ∀ (fuel attempt lastS : Nat) (lastB : String),
      attempt + fuel = cfg.maxAttempts + 1 → 1 ≤ attempt → attempt ≤ cfg.maxAttempts →
      legacyRetryAux cfg net lastS lastB fuel attempt =
        .error (.netFault (errOf cfg.maxAttempts) lastS lastB) := by
  intro fuel
  induction fuel with
  | zero => intro attempt lastS lastB hinv h1 h2; omega
  | succ fuel ih =>
    intro attempt lastS lastB hinv h1 h2
    simp only [legacyRetryAux]
    split
    next s b heq =>
      rw [hnet attempt h1 h2] at heq
      cases heq
    next e heq =>
      rw [hnet attempt h1 h2] at heq
      cases heq
      by_cases hfin : attempt = cfg.maxAttempts
      · rw [if_pos hfin, hfin]
      · rw [if_neg hfin]
        exact ih (attempt + 1) lastS lastB (by omega) (by omega) (by omega)

/-! ## Lemmas about the candidate fallback loop and the handler -/

theorem forwardLoop_status (cfg : RetryCfg) (af ib : Bool) (net : String → Nat → NetOutcome)
    (jit : String → Nat → Nat) (payload : JValue) :
    ∀ (cands : List Candidate) (last : Option RetryOk) (used details : String),
      (forwardLoop cfg af ib net jit payload last used details cands).res.status = 200 := by
  intro cands
  induction cands with
  | nil => intro last used details; rfl
  | cons c rest ih =>
    intro last used details
    simp only [forwardLoop]
    split
    next resp heq =>
      split
      next => rfl
      next => exact ih (some resp) c.label details
    next e heq =>
      split
      next => rfl
      next => exact ih last c.label (errDetails e)

/-- Every POST issued by the loop targets one of its candidates and
carries the loop's payload. -/
theorem forwardLoop_calls_shape (cfg : RetryCfg) (af ib : Bool)
    (net : String → Nat → NetOutcome) (jit : String → Nat → Nat) (payload : JValue) :
    ∀ (cands : List Candidate) (last : Option RetryOk) (used details : String) (e : Call),
      e ∈ (forwardLoop cfg af ib net jit payload last used details cands).calls →
      (∃ c ∈ cands, e.label = c.label ∧ e.url = c.url) ∧ e.payload = payload := by
  intro cands
  induction cands with
  | nil => intro last used details e he; simp [forwardLoop] at he
  | cons c rest ih =>
    intro last used details e he
    simp only [forwardLoop] at he
    have hfirst : ∀ a : Nat,
        e = (⟨c.label, c.url, a, payload⟩ : Call) →
        (∃ c' ∈ c :: rest, e.label = c'.label ∧ e.url = c'.url) ∧ e.payload = payload := by
      intro a hea
      subst hea
      exact ⟨⟨c, List.mem_cons_self c rest, rfl, rfl⟩, rfl⟩
    split at he
    next resp heq =>
      split at he
      next =>
        simp only [List.mem_map] at he
        obtain ⟨a, _, hea⟩ := he
        exact hfirst a hea.symm
      next =>
        simp only [List.mem_append, List.mem_map] at he
        rcases he with ⟨a, _, hea⟩ | he
        · exact hfirst a hea.symm
        · obtain ⟨⟨c', hc', hl⟩, hp⟩ := ih (some resp) c.label details e he
          exact ⟨⟨c', List.mem_cons_of_mem c hc', hl⟩, hp⟩
    next err heq =>
      split at he
      next =>
        simp only [List.mem_map] at he
        obtain ⟨a, _, hea⟩ := he
        exact hfirst a hea.symm
      next =>
        simp only [List.mem_append, List.mem_map] at he
        rcases he with ⟨a, _, hea⟩ | he
        · exact hfirst a hea.symm
        · obtain ⟨⟨c', hc', hl⟩, hp⟩ := ih last c.label (errDetails err) e he
          exact ⟨⟨c', List.mem_cons_of_mem c hc', hl⟩, hp⟩

/-- With fallback disabled, the first candidate's outcome is terminal
whatever it is: the loop returns after that candidate. -/
theorem forwardLoop_noFallback (cfg : RetryCfg) (ib : Bool)
    (net : String → Nat → NetOutcome) (jit : String → Nat → Nat) (payload : JValue)
    (c : Candidate) (rest : List Candidate) (last : Option RetryOk) (used details : String) :
    (forwardLoop cfg false ib net jit payload last used details (c :: rest)).calls =
      (postJsonWithRetry cfg (net c.label) (jit c.label)).tries.map
        (fun a => ⟨c.label, c.url, a, payload⟩) := by
  simp only [forwardLoop]
  split
  next resp heq => simp
  next e heq => simp

/-- A 2xx forward outcome on the first candidate is terminal: the composed
response and trace come from that candidate alone. -/
theorem forwardLoop_firstSuccess (cfg : RetryCfg) (af ib : Bool)
    (net : String → Nat → NetOutcome) (jit : String → Nat → Nat) (payload : JValue)
    (c : Candidate) (rest : List Candidate) (last : Option RetryOk) (used details : String)
    (r : RetryOk)
    (hres : (postJsonWithRetry cfg (net c.label) (jit c.label)).result = .ok r)
    (h2xx : 200 ≤ r.status ∧ r.status < 300) :
    forwardLoop cfg af ib net jit payload last used details (c :: rest) =
      ⟨forwardResponse ib r c.label,
       (postJsonWithRetry cfg (net c.label) (jit c.label)).tries.map
         (fun a => ⟨c.label, c.url, a, payload⟩)⟩ := by
  simp only [forwardLoop]
  split
  next resp heq =>
    rw [hres] at heq
    cases heq
    rw [if_pos (Or.inl h2xx)]
  next e heq =>
    rw [hres] at heq
    cases heq

theorem forwardLoop_calls_head (cfg : RetryCfg) (af ib : Bool)
    (net : String → Nat → NetOutcome) (jit : String → Nat → Nat) (payload : JValue)
    (c : Candidate) (rest : List Candidate) (last : Option RetryOk) (used details : String)
    (hA : 1 ≤ cfg.maxAttempts) :
    (forwardLoop cfg af ib net jit payload last used details (c :: rest)).calls.head? =
      some ⟨c.label, c.url, 1, payload⟩ := by
  obtain ⟨tl, htl⟩ := postJsonWithRetry_tries_cons cfg (net c.label) (jit c.label) hA
  simp only [forwardLoop]
  split
  next resp heq =>
    split
    next => simp [htl]
    next => simp [htl]
  next e heq =>
    split
    next => simp [htl]
    next => simp [htl]

theorem effectiveBody_of_truthy (req : Req) (parse : String → Option JValue)
    (h : truthy req.body = true) : effectiveBody req parse = req.body := by
  unfold effectiveBody
  rw [if_pos h]

/-- A record whose `eventType` lookup yields a string can only come from a
truthy body (an object, or an array with an object head). -/
theorem truthy_of_first_field (b : JValue) (k : String) (s : String)
    (h : jsGet (jsFirst b) k = .str s) : truthy b = true := by
  cases b <;> simp [jsFirst, jsGet, truthy] at h ⊢

theorem isValidationEvent_of_eventType (first : JValue)
    (h : jsGet first "eventType" = .str validationEventType) :
    isValidationEvent first = true := by
  unfold isValidationEvent
  rw [h]
  simp

theorem echoCode_str (first : JValue) (s : String)
    (h : jsGet (jsGet first "data") "validationCode" = .str s) :
    echoCode first = .str s := by
  unfold echoCode jsOr
  rw [h]
  by_cases hs : s = ""
  · subst hs; simp [truthy]
  · rw [if_pos (by simp [truthy, hs])]

theorem echoCode_absent (first : JValue)
    (h : jsGet (jsGet first "data") "validationCode" = .undefined) :
    echoCode first = .str "" := by
  unfold echoCode jsOr
  rw [h]
  simp [truthy]

/-- Unfolding of the handler in the empty/unparseable-body branch. -/
theorem runHandler_emptyBody (env : Env) (req : Req) (parse : String → Option JValue)
    (net : String → Nat → NetOutcome) (jit : String → Nat → Nat)
    (hb : truthy (effectiveBody req parse) = false) :
    runHandler env req parse net jit = ⟨emptyBodyResponse, []⟩ := by
  unfold runHandler
  rw [if_pos hb]

/-- Unfolding of the handler in the handshake branch. -/
theorem runHandler_handshake (env : Env) (req : Req) (parse : String → Option JValue)
    (net : String → Nat → NetOutcome) (jit : String → Nat → Nat)
    (hb : truthy (effectiveBody req parse) = true)
    (hev : isValidationEvent (jsFirst (effectiveBody req parse)) = true) :
    runHandler env req parse net jit =
      ⟨handshakeResponse (echoCode (jsFirst (effectiveBody req parse))), []⟩ := by
  unfold runHandler
  rw [if_neg (by simp [hb]), if_pos hev]

/-- Unfolding of the handler in the no-candidates branch. -/
theorem runHandler_noCandidates (env : Env) (req : Req) (parse : String → Option JValue)
    (net : String → Nat → NetOutcome) (jit : String → Nat → Nat)
    (hb : truthy (effectiveBody req parse) = true)
    (hev : isValidationEvent (jsFirst (effectiveBody req parse)) = false)
    (hcs : selectCallbackUrls env = []) :
    runHandler env req parse net jit = ⟨noCallbackResponse, []⟩ := by
  unfold runHandler
  rw [if_neg (by simp [hb]), if_neg (by simp [hev]), hcs]

/-- Unfolding of the handler in the forwarding branch. -/
theorem runHandler_forward (env : Env) (req : Req) (parse : String → Option JValue)
    (net : String → Nat → NetOutcome) (jit : String → Nat → Nat)
    (c0 : Candidate) (cs : List Candidate)
    (hb : truthy (effectiveBody req parse) = true)
    (hev : isValidationEvent (jsFirst (effectiveBody req parse)) = false)
    (hcs : selectCallbackUrls env = c0 :: cs) :
    runHandler env req parse net jit =
      forwardLoop (retryCfg env) (allowFallbackEnv env) (includeBodyEnv env) net jit
        (effectiveBody req parse) none "NONE" "" (c0 :: cs) := by
  unfold runHandler
  rw [if_neg (by simp [hb]), if_neg (by simp [hev]), hcs]

/-! ## Concrete fixtures used by witnesses and the C10 counterexample -/

/-- A `JSON.parse` oracle that always fails (irrelevant to fixtures whose
`rawBody` is absent). -/
def parse0 : String → Option JValue := fun _ => none

/-- Zero jitter seed. -/
def jit0 : String → Nat → Nat := fun _ _ => 0

/-- Downstream that always answers 200. -/
def net200 : String → Nat → NetOutcome := fun _ _ => .resp 200 "ok"

/-- Downstream that always answers 404 (non-retryable). -/
def net404 : String → Nat → NetOutcome := fun _ _ => .resp 404 "nf"

/-- Only the stable slot configured. -/
def envOne : Env := { LOGICAPP_CALLBACK_URL_ACTIVE := some "https://active.example/cb" }

/-- Canary and stable slots configured. -/
def envTwo : Env :=
  { LOGICAPP_CALLBACK_URL_NEXT := some "https://next.example/cb"
    LOGICAPP_CALLBACK_URL_ACTIVE := some "https://active.example/cb" }

/-- Canary and stable slots configured, fallback disabled. -/
def envTwoNoFb : Env :=
  { LOGICAPP_CALLBACK_URL_NEXT := some "https://next.example/cb"
    LOGICAPP_CALLBACK_URL_ACTIVE := some "https://active.example/cb"
    FORWARD_ALLOW_FALLBACK := some "false" }

/-- An ordinary (forwardable) storage event. -/
def reqEvt : Req := ⟨.obj [("eventType", .str "Microsoft.Storage.BlobCreated")], none⟩

/-- A subscription-validation handshake request. -/
def reqHs : Req :=
  ⟨.obj [("eventType", .str "Microsoft.EventGrid.SubscriptionValidationEvent"),
         ("data", .obj [("validationCode", .str "code-777")])], none⟩

/-- A request whose body is the empty array. -/
def reqArrEmpty : Req := ⟨.arr [], none⟩

/-! ## The claims -/

/-- C1: for every incoming request (well-formed, malformed, empty,
handshake, or forwardable) and every forwarding outcome reachable through
the downstream oracle (2xx, non-2xx, network failure at every attempt, or
no candidates configured), the HTTP status of the proxy's own response is
200; the embedded handler is a total function, so no execution path lets
an exception escape. -/
theorem proxy_never_signals_redelivery (env : Env) (req : Req)
    (parse : String → Option JValue) (net : String → Nat → NetOutcome)
    (jit : String → Nat → Nat) :
    (runHandler env req parse net jit).res.status = 200 := by
  by_cases hb : truthy (effectiveBody req parse) = true
  · by_cases hev : isValidationEvent (jsFirst (effectiveBody req parse)) = true
    · rw [runHandler_handshake env req parse net jit hb hev]
      rfl
    · cases hcs : selectCallbackUrls env with
      | nil =>
        rw [runHandler_noCandidates env req parse net jit hb (by simpa using hev) hcs]
        rfl
      | cons c cs =>
        rw [runHandler_forward env req parse net jit c cs hb (by simpa using hev) hcs]
        exact forwardLoop_status _ _ _ _ _ _ _ _ _ _
  · rw [runHandler_emptyBody env req parse net jit (by simpa using hb)]
    rfl

/-- C2: whenever the first (or only) record of the effective body has
`eventType` equal to the subscription-validation type, the handler answers
200 with body `{validationResponse: X}` where `X` is
`first.data.validationCode` when that is a string, defaulting to `""` when
`data` or `validationCode` is absent; no downstream POST is ever issued
(terminal branch), and the handler is total, so nothing throws on a
missing field. -/
theorem handshake_terminal_echo (env : Env) (req : Req) (parse : String → Option JValue)
    (net : String → Nat → NetOutcome) (jit : String → Nat → Nat)
    (h : jsGet (jsFirst (effectiveBody req parse)) "eventType" = .str validationEventType) :
    runHandler env req parse net jit =
      ⟨handshakeResponse (echoCode (jsFirst (effectiveBody req parse))), []⟩ ∧
    (runHandler env req parse net jit).res.status = 200 ∧
    (runHandler env req parse net jit).calls = [] ∧
    (∀ s, jsGet (jsGet (jsFirst (effectiveBody req parse)) "data") "validationCode" = .str s →
      (runHandler env req parse net jit).res.body = .obj [("validationResponse", .str s)]) ∧
    (jsGet (jsGet (jsFirst (effectiveBody req parse)) "data") "validationCode" = .undefined →
      (runHandler env req parse net jit).res.body = .obj [("validationResponse", .str "")]) := by
  have hb := truthy_of_first_field (effectiveBody req parse) "eventType" validationEventType h
  have hev := isValidationEvent_of_eventType (jsFirst (effectiveBody req parse)) h
  have hrw := runHandler_handshake env req parse net jit hb hev
  refine ⟨hrw, by rw [hrw]; rfl, by rw [hrw], ?_, ?_⟩
  · intro s hs
    rw [hrw]
    show (handshakeResponse (echoCode (jsFirst (effectiveBody req parse)))).body = _
    rw [echoCode_str _ s hs]
    rfl
  · intro hu
    rw [hrw]
    show (handshakeResponse (echoCode (jsFirst (effectiveBody req parse)))).body = _
    rw [echoCode_absent _ hu]
    rfl

theorem handshake_terminal_echo_witness :
    (runHandler envOne reqHs parse0 net200 jit0).res.status = 200 ∧
    (runHandler envOne reqHs parse0 net200 jit0).calls = [] ∧
    (runHandler envOne reqHs parse0 net200 jit0).res.body =
      .obj [("validationResponse", .str "code-777")] := by
  have h := handshake_terminal_echo envOne reqHs parse0 net200 jit0 rfl
  exact ⟨h.2.1, h.2.2.1, h.2.2.2.1 "code-777" rfl⟩

/-- C3: a response status is classified retryable exactly when it is 408,
429 or in 500..599; at any reached attempt, a 2xx response is returned
immediately with the attempt count used, a non-retryable non-2xx status is
returned immediately with that status and attempt count, and a retryable
status on the final attempt is returned as a normal result (the `ok`
channel), never raised as an error. -/
theorem retry_status_policy (cfg : RetryCfg) (net : Nat → NetOutcome) (jit : Nat → Nat)
    (hA : 1 ≤ cfg.maxAttempts) :
    (∀ s, isRetryableStatus s = true ↔ (s = 408 ∨ s = 429 ∨ (500 ≤ s ∧ s ≤ 599))) ∧
    (∀ a s b, 1 ≤ a → a ≤ cfg.maxAttempts →
      (∀ i, 1 ≤ i → i < a → continuesB (net i) = true) →
      net a = .resp s b → 200 ≤ s ∧ s < 300 →
      (postJsonWithRetry cfg net jit).result = .ok ⟨s, b, a⟩ ∧
      (postJsonWithRetry cfg net jit).tries = List.range' 1 a) ∧
    (∀ a s b, 1 ≤ a → a ≤ cfg.maxAttempts →
      (∀ i, 1 ≤ i → i < a → continuesB (net i) = true) →
      net a = .resp s b → isRetryableStatus s = false →
      (postJsonWithRetry cfg net jit).result = .ok ⟨s, b, a⟩ ∧
      (postJsonWithRetry cfg net jit).tries = List.range' 1 a) ∧
    (∀ s b, (∀ i, 1 ≤ i → i < cfg.maxAttempts → continuesB (net i) = true) →
      net cfg.maxAttempts = .resp s b → isRetryableStatus s = true →
      (postJsonWithRetry cfg net jit).result = .ok ⟨s, b, cfg.maxAttempts⟩ ∧
      (postJsonWithRetry cfg net jit).tries = List.range' 1 cfg.maxAttempts) := by
  refine ⟨isRetryableStatus_iff, ?_, ?_, ?_⟩
  · intro a s b ha1 ha2 hreach hnet h2
    exact postJsonWithRetry_result_at cfg net jit a ha1 ha2 hreach hnet (Or.inl h2)
  · intro a s b ha1 ha2 hreach hnet hnr
    exact postJsonWithRetry_result_at cfg net jit a ha1 ha2 hreach hnet (Or.inr (Or.inl hnr))
  · intro s b hreach hnet hr
    exact postJsonWithRetry_result_at cfg net jit cfg.maxAttempts hA le_rfl hreach hnet
      (Or.inr (Or.inr rfl))

theorem retry_status_policy_witness :
    (postJsonWithRetry ⟨4, 500, 8000⟩ (fun _ => .resp 204 "x") (fun _ => 0)).result =
      .ok ⟨204, "x", 1⟩ ∧
    (postJsonWithRetry ⟨4, 500, 8000⟩ (fun _ => .resp 204 "x") (fun _ => 0)).tries =
      List.range' 1 1 :=
  (retry_status_policy ⟨4, 500, 8000⟩ (fun _ => .resp 204 "x") (fun _ => 0)
      (by decide)).2.1 1 204 "x" (by decide) (by decide)
    (fun i h1 h2 => absurd h2 (Nat.not_lt.mpr h1)) rfl (by decide)

/-- C4: if all `maxAttempts` POSTs to one candidate fail at the network
level (no HTTP response received), `postJsonWithRetry` surfaces a thrown
fault — the `error` channel, distinguishable from a returned bad status —
namely the final attempt's error; in the earlier revision the fault object
additionally carries the most recent partial result (`lastResponse`),
which after all-network failure is still the initial `{status: 0, body:
""}` since no response was ever received. -/
theorem network_exhaustion_raises (cfg : RetryCfg) (net : Nat → NetOutcome) (jit : Nat → Nat)
    (errOf : Nat → Nat) (hA : 1 ≤ cfg.maxAttempts)
    (hnet : ∀ a, 1 ≤ a → a ≤ cfg.maxAttempts → net a = .err (errOf a)) :
    (postJsonWithRetry cfg net jit).result = .error (.netFault (errOf cfg.maxAttempts)) ∧
    legacyPostJsonWithRetry cfg net = .error (.netFault (errOf cfg.maxAttempts) 0 "") := by
  constructor
  · have hreach : ∀ i, 1 ≤ i → i < cfg.maxAttempts → continuesB (net i) = true := by
      intro i h1 h2
      rw [hnet i h1 (Nat.le_of_lt h2)]
      rfl
    have h := postJsonWithRetry_reach cfg net jit cfg.maxAttempts hA le_rfl hreach
    rw [h]
    show (retryAux cfg net jit (cfg.maxAttempts - cfg.maxAttempts + 1) cfg.maxAttempts).result = _
    rw [show cfg.maxAttempts - cfg.maxAttempts + 1 = 0 + 1 by omega,
        retryAux_err_done cfg net jit 0 cfg.maxAttempts (hnet _ hA le_rfl) rfl]
  · show legacyRetryAux cfg net 0 "" cfg.maxAttempts 1 = _
    exact legacyRetryAux_allErr cfg net errOf hnet cfg.maxAttempts 1 0 "" (by omega) le_rfl hA

theorem network_exhaustion_raises_witness :
    (postJsonWithRetry ⟨2, 500, 8000⟩ (fun _ => .err 7) (fun _ => 0)).result =
      .error (.netFault 7) ∧
    legacyPostJsonWithRetry ⟨2, 500, 8000⟩ (fun _ => .err 7) = .error (.netFault 7 0 "") :=
  network_exhaustion_raises ⟨2, 500, 8000⟩ (fun _ => .err 7) (fun _ => 0) (fun _ => 7)
    (by decide) (fun a _ _ => rfl)

/-- C5: the delay slept after a retried attempt `a` is exactly
`min(maxDelay, min(maxDelay, baseDelay * 2^(a-1)) + jitter)` with the
jitter drawn from `[0, min(250, exponentialDelay))` (every value of that
interval is drawable, and nothing outside it); the delays of a run are
those of consecutive attempts `1, 2, ...`, at most `maxAttempts - 1` of
them, each at most `maxDelay`, so total sleeping per candidate is at most
`(maxAttempts - 1) * maxDelay`. -/
theorem backoff_formula_and_budget (cfg : RetryCfg) (net : Nat → NetOutcome)
    (jit : Nat → Nat) :
    (∀ a, backoffDelay cfg jit a =
      min cfg.maxDelayMs
        (min cfg.maxDelayMs (cfg.baseDelayMs * 2 ^ (a - 1)) + usedJitter cfg jit a)) ∧
    (∀ a, 0 < min 250 (expDelay cfg a) → usedJitter cfg jit a < min 250 (expDelay cfg a)) ∧
    (∀ a, min 250 (expDelay cfg a) = 0 → usedJitter cfg jit a = 0) ∧
    (∀ a v, v < min 250 (expDelay cfg a) → ∃ seed : Nat → Nat, usedJitter cfg seed a = v) ∧
    (∃ k, k ≤ cfg.maxAttempts - 1 ∧
      (postJsonWithRetry cfg net jit).delays = (List.range' 1 k).map (backoffDelay cfg jit)) ∧
    (∀ d ∈ (postJsonWithRetry cfg net jit).delays, d ≤ cfg.maxDelayMs) ∧
    (postJsonWithRetry cfg net jit).delays.sum ≤ (cfg.maxAttempts - 1) * cfg.maxDelayMs := by
  obtain ⟨k, hk, hkb⟩ := retryAux_delays_shape cfg net jit cfg.maxAttempts 1 (by omega)
  have hkle : k ≤ cfg.maxAttempts - 1 := by omega
  have hdle : ∀ d ∈ (postJsonWithRetry cfg net jit).delays, d ≤ cfg.maxDelayMs :=
    fun d hd => retryAux_delays_le cfg net jit cfg.maxAttempts 1 d hd
  refine ⟨fun a => rfl, ?_, ?_, ?_, ⟨k, hkle, hk⟩, hdle, ?_⟩
  · intro a h
    unfold usedJitter
    rw [Nat.max_eq_right h]
    exact Nat.mod_lt _ h
  · intro a h
    unfold usedJitter
    rw [h]
    exact Nat.mod_one _
  · intro a v hv
    have h1 : 0 < min 250 (expDelay cfg a) := Nat.pos_of_ne_zero fun h0 => by
      rw [h0] at hv
      exact Nat.not_lt_zero v hv
    refine ⟨fun _ => v, ?_⟩
    unfold usedJitter
    rw [Nat.max_eq_right h1]
    exact Nat.mod_eq_of_lt hv
  · have hlen : (postJsonWithRetry cfg net jit).delays.length = k := by
      show (retryAux cfg net jit cfg.maxAttempts 1).delays.length = k
      rw [hk]
      simp
    have hsum := nat_sum_le_length_mul (postJsonWithRetry cfg net jit).delays hdle
    rw [hlen] at hsum
    exact le_trans hsum (Nat.mul_le_mul_right _ hkle)

theorem backoff_formula_and_budget_witness :
    (postJsonWithRetry ⟨3, 500, 8000⟩ (fun _ => .resp 503 "busy") (fun _ => 17)).delays.sum ≤
      (3 - 1) * 8000 :=
  (backoff_formula_and_budget ⟨3, 500, 8000⟩ (fun _ => .resp 503 "busy")
    (fun _ => 17)).2.2.2.2.2.2

/-- The canary slot is configured and not the `"null"` sentinel. -/
def nextSlotOk (env : Env) : Bool :=
  let next := env.LOGICAPP_CALLBACK_URL_NEXT.getD ""
  next != "" && next != "null"

/-- The stable slot is configured and not the `"null"` sentinel. -/
def activeSlotOk (env : Env) : Bool :=
  let active := env.LOGICAPP_CALLBACK_URL_ACTIVE.getD ""
  active != "" && active != "null"

/-- C6: the candidate selector returns the canary (NEXT) slot first iff it
is configured and not the `"null"` sentinel, then the stable (ACTIVE) slot
under the same condition; the list has length 0, 1 or 2, is empty exactly
when neither slot qualifies, and the head of a non-empty list is the
candidate the handler actually POSTs to first. -/
theorem candidate_selector_contract (env : Env) (req : Req) (parse : String → Option JValue)
    (net : String → Nat → NetOutcome) (jit : String → Nat → Nat) :
    selectCallbackUrls env =
      (if nextSlotOk env then [⟨"NEXT", env.LOGICAPP_CALLBACK_URL_NEXT.getD ""⟩] else []) ++
      (if activeSlotOk env then [⟨"ACTIVE", env.LOGICAPP_CALLBACK_URL_ACTIVE.getD ""⟩] else []) ∧
    (selectCallbackUrls env).length ≤ 2 ∧
    (nextSlotOk env = false → activeSlotOk env = false → selectCallbackUrls env = []) ∧
    (∀ c cs, truthy (effectiveBody req parse) = true →
      isValidationEvent (jsFirst (effectiveBody req parse)) = false →
      selectCallbackUrls env = c :: cs → 1 ≤ (retryCfg env).maxAttempts →
      (runHandler env req parse net jit).calls.head? =
        some ⟨c.label, c.url, 1, effectiveBody req parse⟩) := by
  have hchar : selectCallbackUrls env =
      (if nextSlotOk env then [⟨"NEXT", env.LOGICAPP_CALLBACK_URL_NEXT.getD ""⟩] else []) ++
      (if activeSlotOk env then [⟨"ACTIVE", env.LOGICAPP_CALLBACK_URL_ACTIVE.getD ""⟩]
       else []) := by
    unfold selectCallbackUrls nextSlotOk activeSlotOk
    by_cases h1 : (env.LOGICAPP_CALLBACK_URL_NEXT.getD "" != "" &&
        env.LOGICAPP_CALLBACK_URL_NEXT.getD "" != "null") = true <;>
      by_cases h2 : (env.LOGICAPP_CALLBACK_URL_ACTIVE.getD "" != "" &&
        env.LOGICAPP_CALLBACK_URL_ACTIVE.getD "" != "null") = true <;>
      simp [h1, h2]
  refine ⟨hchar, ?_, ?_, ?_⟩
  · rw [hchar]
    by_cases h1 : nextSlotOk env = true <;> by_cases h2 : activeSlotOk env = true <;>
      simp [h1, h2]
  · intro h1 h2
    rw [hchar, h1, h2]
    rfl
  · intro c cs hb hev hcs hA
    rw [runHandler_forward env req parse net jit c cs hb hev hcs]
    exact forwardLoop_calls_head (retryCfg env) (allowFallbackEnv env) (includeBodyEnv env)
      net jit (effectiveBody req parse) c cs none "NONE" "" hA

theorem candidate_selector_contract_witness :
    selectCallbackUrls envTwo =
      [⟨"NEXT", "https://next.example/cb"⟩, ⟨"ACTIVE", "https://active.example/cb"⟩] ∧
    (runHandler envTwo reqEvt parse0 net200 jit0).calls.head? =
      some ⟨"NEXT", "https://next.example/cb", 1, effectiveBody reqEvt parse0⟩ := by
  have h := candidate_selector_contract envTwo reqEvt parse0 net200 jit0
  refine ⟨by rw [h.1]; rfl, ?_⟩
  exact h.2.2.2 ⟨"NEXT", "https://next.example/cb"⟩ [⟨"ACTIVE", "https://active.example/cb"⟩]
    rfl rfl rfl (by decide)

/-- C7: in the candidate fallback loop a candidate's outcome is terminal —
no later candidate is ever contacted — whenever its forward succeeded with
a 2xx status, or fallback is disabled, or the candidate is the last of the
list (no POST ever targets a candidate outside the selected list); in
particular, with fallback disabled every POST of the whole invocation
targets the first candidate, whatever its failure mode. -/
theorem fallback_terminal_conditions (env : Env) (req : Req)
    (parse : String → Option JValue) (net : String → Nat → NetOutcome)
    (jit : String → Nat → Nat) (c0 : Candidate) (cs : List Candidate)
    (hb : truthy (effectiveBody req parse) = true)
    (hev : isValidationEvent (jsFirst (effectiveBody req parse)) = false)
    (hcs : selectCallbackUrls env = c0 :: cs) :
    (∀ e ∈ (runHandler env req parse net jit).calls,
      ∃ c ∈ c0 :: cs, e.label = c.label ∧ e.url = c.url) ∧
    (allowFallbackEnv env = false →
      ∀ e ∈ (runHandler env req parse net jit).calls,
        e.label = c0.label ∧ e.url = c0.url) ∧
    (∀ r, (postJsonWithRetry (retryCfg env) (net c0.label) (jit c0.label)).result = .ok r →
      200 ≤ r.status ∧ r.status < 300 →
      (runHandler env req parse net jit).res =
        forwardResponse (includeBodyEnv env) r c0.label ∧
      ∀ e ∈ (runHandler env req parse net jit).calls,
        e.label = c0.label ∧ e.url = c0.url) := by
  have hrw := runHandler_forward env req parse net jit c0 cs hb hev hcs
  refine ⟨?_, ?_, ?_⟩
  · intro e he
    rw [hrw] at he
    exact (forwardLoop_calls_shape _ _ _ _ _ _ _ _ _ _ e he).1
  · intro haf e he
    rw [hrw, haf, forwardLoop_noFallback] at he
    simp only [List.mem_map] at he
    obtain ⟨a, _, hea⟩ := he
    rw [← hea]
    exact ⟨rfl, rfl⟩
  · intro r hres h2
    rw [hrw, forwardLoop_firstSuccess (retryCfg env) (allowFallbackEnv env)
      (includeBodyEnv env) net jit (effectiveBody req parse) c0 cs none "NONE" "" r hres h2]
    refine ⟨rfl, ?_⟩
    intro e he
    simp only [List.mem_map] at he
    obtain ⟨a, _, hea⟩ := he
    rw [← hea]
    exact ⟨rfl, rfl⟩

theorem fallback_terminal_conditions_witness :
    (⟨"NEXT", "https://next.example/cb", 1, effectiveBody reqEvt parse0⟩ : Call).label =
      "NEXT" ∧
    (⟨"NEXT", "https://next.example/cb", 1, effectiveBody reqEvt parse0⟩ : Call).url =
      "https://next.example/cb" :=
  (fallback_terminal_conditions envTwoNoFb reqEvt parse0 net404 jit0
    ⟨"NEXT", "https://next.example/cb"⟩ [⟨"ACTIVE", "https://active.example/cb"⟩]
    rfl rfl rfl).2.1 (by decide)
    ⟨"NEXT", "https://next.example/cb", 1, effectiveBody reqEvt parse0⟩
    (by rw [show (runHandler envTwoNoFb reqEvt parse0 net404 jit0).calls =
          [⟨"NEXT", "https://next.example/cb", 1, effectiveBody reqEvt parse0⟩] from rfl]
        exact List.mem_singleton_self _)

/-- C8: for every forwardable input, if the first configured candidate
responds 2xx on its first POST attempt, the final outcome has
`attempts = 1`, `ok = true`, `usedCallback` equal to that candidate's
label, and exactly one POST was issued — the second candidate is never
contacted. -/
theorem first_attempt_success_outcome (env : Env) (req : Req)
    (parse : String → Option JValue) (net : String → Nat → NetOutcome)
    (jit : String → Nat → Nat) (c0 : Candidate) (cs : List Candidate) (s : Nat) (b : String)
    (hb : truthy (effectiveBody req parse) = true)
    (hev : isValidationEvent (jsFirst (effectiveBody req parse)) = false)
    (hcs : selectCallbackUrls env = c0 :: cs)
    (hA : 1 ≤ (retryCfg env).maxAttempts)
    (hnet : net c0.label 1 = .resp s b) (h2xx : 200 ≤ s ∧ s < 300) :
    (runHandler env req parse net jit).res.status = 200 ∧
    responseField (runHandler env req parse net jit).res "ok" = some (.bool true) ∧
    responseField (runHandler env req parse net jit).res "attempts" = some (.num 1) ∧
    responseField (runHandler env req parse net jit).res "forwardedStatus" = some (.num (s : Int)) ∧
    responseField (runHandler env req parse net jit).res "usedCallback" = some (.str c0.label) ∧
    (runHandler env req parse net jit).calls =
      [⟨c0.label, c0.url, 1, effectiveBody req parse⟩] := by
  have hres := postJsonWithRetry_result_at (retryCfg env) (net c0.label) (jit c0.label) 1
    le_rfl hA (fun i h1 h2 => absurd h2 (Nat.not_lt.mpr h1)) hnet (Or.inl h2xx)
  have hrw := runHandler_forward env req parse net jit c0 cs hb hev hcs
  have hloop := forwardLoop_firstSuccess (retryCfg env) (allowFallbackEnv env)
    (includeBodyEnv env) net jit (effectiveBody req parse) c0 cs none "NONE" ""
    ⟨s, b, 1⟩ hres.1 h2xx
  have htr : (postJsonWithRetry (retryCfg env) (net c0.label) (jit c0.label)).tries = [1] :=
    hres.2
  rw [hrw, hloop]
  have hok : decide (200 ≤ s ∧ s < 300) = true := decide_eq_true h2xx
  refine ⟨rfl, ?_, ?_, ?_, ?_, by rw [htr]; rfl⟩
  · show some (JValue.bool (decide (200 ≤ s ∧ s < 300))) = some (.bool true)
    rw [hok]
  · rfl
  · rfl
  · rfl

theorem first_attempt_success_outcome_witness :
    responseField (runHandler envOne reqEvt parse0 net200 jit0).res "ok" = some (.bool true) ∧
    responseField (runHandler envOne reqEvt parse0 net200 jit0).res "attempts" = some (.num 1) ∧
    responseField (runHandler envOne reqEvt parse0 net200 jit0).res "usedCallback" =
      some (.str "ACTIVE") ∧
    (runHandler envOne reqEvt parse0 net200 jit0).calls =
      [⟨"ACTIVE", "https://active.example/cb", 1, effectiveBody reqEvt parse0⟩] := by
  have h := first_attempt_success_outcome envOne reqEvt parse0 net200 jit0
    ⟨"ACTIVE", "https://active.example/cb"⟩ [] 200 "ok" rfl rfl rfl (by decide) rfl
    (by decide)
  exact ⟨h.2.1, h.2.2.1, h.2.2.2.2.1, h.2.2.2.2.2⟩

/-- C9: every downstream POST of an invocation carries the received
payload unmodified — the value written is the effective body itself, so
its JSON serialization equals the serialization of the body received from
the event source, for single-object and array shapes alike. -/
theorem forwarded_payload_unmodified (env : Env) (req : Req)
    (parse : String → Option JValue) (net : String → Nat → NetOutcome)
    (jit : String → Nat → Nat) :
    ∀ e ∈ (runHandler env req parse net jit).calls,
      e.payload = effectiveBody req parse ∧
      jsonSerialize e.payload = jsonSerialize (effectiveBody req parse) := by
  intro e he
  suffices h : e.payload = effectiveBody req parse from ⟨h, by rw [h]⟩
  by_cases hb : truthy (effectiveBody req parse) = true
  · by_cases hev : isValidationEvent (jsFirst (effectiveBody req parse)) = true
    · rw [runHandler_handshake env req parse net jit hb hev] at he
      simp at he
    · cases hcs : selectCallbackUrls env with
      | nil =>
        rw [runHandler_noCandidates env req parse net jit hb (by simpa using hev) hcs] at he
        simp at he
      | cons c cs =>
        rw [runHandler_forward env req parse net jit c cs hb (by simpa using hev) hcs] at he
        exact (forwardLoop_calls_shape _ _ _ _ _ _ _ _ _ _ e he).2
  · rw [runHandler_emptyBody env req parse net jit (by simpa using hb)] at he
    simp at he

theorem forwarded_payload_unmodified_witness :
    (⟨"ACTIVE", "https://active.example/cb", 1, effectiveBody reqEvt parse0⟩ : Call).payload =
      effectiveBody reqEvt parse0 ∧
    jsonSerialize
        (⟨"ACTIVE", "https://active.example/cb", 1,
          effectiveBody reqEvt parse0⟩ : Call).payload =
      jsonSerialize (effectiveBody reqEvt parse0) :=
  forwarded_payload_unmodified envOne reqEvt parse0 net200 jit0
    ⟨"ACTIVE", "https://active.example/cb", 1, effectiveBody reqEvt parse0⟩
    (by rw [show (runHandler envOne reqEvt parse0 net200 jit0).calls =
          [⟨"ACTIVE", "https://active.example/cb", 1, effectiveBody reqEvt parse0⟩] from rfl]
        exact List.mem_singleton_self _)

/-- C10 counterexample: a request whose body is the empty array is not
classified as Empty/Unparseable and is forwarded.  With a stable candidate
configured and a 200-answering downstream, the handler issues one POST
(payload `[]`) and composes the forwarded-outcome response (no `error`
field, `ok: true`), not the degraded `Empty/unparseable body` response the
claim requires. -/
theorem empty_array_not_malformed_counterexample :
    (runHandler envOne reqArrEmpty parse0 net200 jit0).calls =
      [⟨"ACTIVE", "https://active.example/cb", 1, .arr []⟩] ∧
    (runHandler envOne reqArrEmpty parse0 net200 jit0).calls ≠ [] ∧
    responseField (runHandler envOne reqArrEmpty parse0 net200 jit0).res "error" = none ∧
    responseField (runHandler envOne reqArrEmpty parse0 net200 jit0).res "ok" =
      some (.bool true) ∧
    (runHandler envOne reqArrEmpty parse0 net200 jit0).res ≠ emptyBodyResponse := by
  refine ⟨rfl, ?_, rfl, rfl, ?_⟩
  · rw [show (runHandler envOne reqArrEmpty parse0 net200 jit0).calls =
        [⟨"ACTIVE", "https://active.example/cb", 1, .arr []⟩] from rfl]
    exact List.cons_ne_nil _ _
  · intro hcontra
    have : responseField (runHandler envOne reqArrEmpty parse0 net200 jit0).res "error" =
        responseField emptyBodyResponse "error" := by rw [hcontra]
    rw [show responseField (runHandler envOne reqArrEmpty parse0 net200 jit0).res "error" =
        none from rfl] at this
    rw [show responseField emptyBodyResponse "error" =
        some (.str "Empty/unparseable body") from rfl] at this
    cases this

/-- C10 amended: an empty-array body is truthy in JavaScript, so the
Empty/Unparseable branch is not taken; its `first` record is `undefined`,
so it is not classified as a handshake either — it is treated as a
forwardable input: with no candidate configured the no-candidate degraded
response results, and with candidates configured the empty array itself is
forwarded to the first candidate; the response status is 200 throughout. -/
theorem empty_array_treated_forwardable (env : Env) (req : Req)
    (parse : String → Option JValue) (net : String → Nat → NetOutcome)
    (jit : String → Nat → Nat) (hb : req.body = .arr []) :
    truthy (effectiveBody req parse) = true ∧
    isValidationEvent (jsFirst (effectiveBody req parse)) = false ∧
    (selectCallbackUrls env = [] →
      runHandler env req parse net jit = ⟨noCallbackResponse, []⟩) ∧
    (∀ c cs, selectCallbackUrls env = c :: cs → 1 ≤ (retryCfg env).maxAttempts →
      (runHandler env req parse net jit).calls.head? =
        some ⟨c.label, c.url, 1, .arr []⟩) ∧
    (runHandler env req parse net jit).res.status = 200 := by
  have htr : truthy req.body = true := by rw [hb]; rfl
  have heff : effectiveBody req parse = .arr [] := by
    rw [effectiveBody_of_truthy req parse htr, hb]
  have hb1 : truthy (effectiveBody req parse) = true := by rw [heff]; rfl
  have hev : isValidationEvent (jsFirst (effectiveBody req parse)) = false := by
    rw [heff]; rfl
  have hstat : (runHandler env req parse net jit).res.status = 200 := by
    cases hcs : selectCallbackUrls env with
    | nil =>
      rw [runHandler_noCandidates env req parse net jit hb1 hev hcs]
      rfl
    | cons c cs =>
      rw [runHandler_forward env req parse net jit c cs hb1 hev hcs]
      exact forwardLoop_status _ _ _ _ _ _ _ _ _ _
  refine ⟨hb1, hev, ?_, ?_, hstat⟩
  · intro hcs
    exact runHandler_noCandidates env req parse net jit hb1 hev hcs
  · intro c cs hcs hA
    rw [runHandler_forward env req parse net jit c cs hb1 hev hcs]
    rw [forwardLoop_calls_head (retryCfg env) (allowFallbackEnv env) (includeBodyEnv env)
      net jit (effectiveBody req parse) c cs none "NONE" "" hA, heff]

theorem empty_array_treated_forwardable_witness :
    (runHandler envTwo reqArrEmpty parse0 net200 jit0).calls.head? =
      some ⟨"NEXT", "https://next.example/cb", 1, .arr []⟩ ∧
    (runHandler envTwo reqArrEmpty parse0 net200 jit0).res.status = 200 := by
  have h := empty_array_treated_forwardable envTwo reqArrEmpty parse0 net200 jit0 rfl
  exact ⟨h.2.2.2.1 ⟨"NEXT", "https://next.example/cb"⟩
    [⟨"ACTIVE", "https://active.example/cb"⟩] rfl (by decide), h.2.2.2.2⟩

end EGProxy
